import Mathlib

/-!
Verification development for the RAG query/job subsystem of the
trade-analysis platform (FastAPI service under `search/`).

The Python source is shallowly embedded:
  * Python `str` values that are only compared or concatenated are
    modelled as Lean `String`; text that the chunking pipeline slices
    character-by-character is modelled as `List Char`.
  * `time.time()` timestamps are modelled as integers (only ordering
    and subtraction of timestamps matter to the code under study, so
    any ordered abelian group of times works; integers keep every
    comparison kernel-computable).
  * the in-memory job dictionary `_jobs` is modelled as a function
    `String → Option Job`; the mutual-exclusion lock makes every
    read-modify-write atomic, so each broker operation is one total
    function on registries.
  * external capabilities (uuid generation, embeddings, the LLM) are
    modelled as explicit oracle parameters.
-/

/-- src/search/schemas.py `PromptOverrides`: optional prompt-assembly knobs. -/
structure PromptOverrides where
  difficulty : Option String
  sections : Option (List String)
  include_examples : Bool
  extra_rules : Option (List String)
  extra_instructions : Option String
deriving DecidableEq

/-- src/search/schemas.py `QueryRequest`: an incoming query. -/
structure QueryRequest where
  question : String
  trade_analysis : String
  prompt_overrides : Option PromptOverrides
deriving DecidableEq

/-- src/search/api.py: one entry of the `_jobs` dictionary:
`{"request": req, "created_at": time.time(), "consumed": False}`. -/
structure Job where
  request : QueryRequest
  created_at : ℤ
  consumed : Bool
deriving DecidableEq

/-- The in-memory job store `_jobs : dict[str, dict]`, as a map from
job id to stored job. -/
abbrev Registry := String → Option Job

/-- src/search/api.py line 48: `_JOB_TTL_SECS = 300`. -/
def JOB_TTL_SECS : ℤ := 300

/-- The registry at process start: `_jobs = {}`. -/
def emptyRegistry : Registry := fun _ => none

/-- src/search/api.py `_create_job` (lines 53-62): store the job under
`job_id`.  The uuid4-generated id is passed in explicitly (the random
generator is an external oracle). -/
def create_job (jobs : Registry) (job_id : String) (req : QueryRequest) (now : ℤ) :
    Registry :=
  fun k =>
    if k = job_id then some { request := req, created_at := now, consumed := false }
    else jobs k

/-- src/search/api.py `_get_job` (lines 65-74): retrieve a job and mark it
consumed; returns `None` when the id is absent or the job was already
consumed.  Returns the result together with the updated registry. -/
def get_job (jobs : Registry) (job_id : String) : Option Job × Registry :=
  match jobs job_id with
  | none => (none, jobs)
  | some j =>
    if j.consumed then (none, jobs)
    else
      (some { j with consumed := true },
       fun k => if k = job_id then some { j with consumed := true } else jobs k)

/-- src/search/api.py `_cleanup_expired` (lines 77-83): delete every job
with `now - created_at > _JOB_TTL_SECS`. -/
def cleanup_expired (jobs : Registry) (now : ℤ) : Registry :=
  fun k =>
    match jobs k with
    | none => none
    | some j => if now - j.created_at > JOB_TTL_SECS then none else some j

/-- src/search/api.py `submit_query` endpoint (lines 107-121): lazily sweep
expired jobs, then store the new job; returns the new registry and the
job id handed back to the caller.  `tClean` and `tCreate` are the two
successive `time.time()` readings. -/
def submit_query (jobs : Registry) (job_id : String) (req : QueryRequest)
    (tClean tCreate : ℤ) : Registry × String :=
  let jobs1 := cleanup_expired jobs tClean
  (create_job jobs1 job_id req tCreate, job_id)

/-- The 410 detail message of src/search/api.py lines 139-142. -/
def goneDetail : String := "Stream not found or already consumed. Submit a new /query."

/-- Outcome of `GET /stream/{job_id}`: either the 410 Gone error or an open
SSE stream answering the stored request. -/
inductive StreamResult where
  | gone (detail : String)
  | streamOk (req : QueryRequest)
deriving DecidableEq

/-- src/search/api.py `stream` endpoint (lines 127-163): consume the job;
410 when `_get_job` returns `None`, otherwise stream the stored request.
Note the endpoint never reads the clock. -/
def streamEndpoint (jobs : Registry) (job_id : String) : StreamResult × Registry :=
  match get_job jobs job_id with
  | (none, s) => (.gone goneDetail, s)
  | (some j, s) => (.streamOk j.request, s)

-- ── Broker traces ────────────────────────────────────────────────────

/-- One externally triggered broker operation.  `submitOp` carries the
oracle-generated job id and the two clock readings of the submission. -/
inductive BrokerOp where
  | submitOp (id : String) (req : QueryRequest) (tClean tCreate : ℤ)
  | streamGet (id : String)
  | expireOp (now : ℤ)
deriving DecidableEq

/-- Effect of one broker operation on the registry. -/
def runOp (s : Registry) : BrokerOp → Registry
  | .submitOp id req t1 t2 => (submit_query s id req t1 t2).1
  | .streamGet id => (streamEndpoint s id).2
  | .expireOp now => cleanup_expired s now

/-- Run a trace of broker operations. -/
def runOps (s : Registry) (ops : List BrokerOp) : Registry :=
  ops.foldl runOp s

/-- The job ids issued by the submissions of a trace, in order. -/
def submitIds : List BrokerOp → List String
  | [] => []
  | .submitOp id _ _ _ :: ops => id :: submitIds ops
  | _ :: ops => submitIds ops

/-- Number of consume calls on `id` that succeed along a trace started in
registry `s` (a consume succeeds when `_get_job` returns a job). -/
def countConsumes : Registry → List BrokerOp → String → Nat
  | _, [], _ => 0
  | s, op :: ops, id =>
    let rest := countConsumes (runOp s op) ops id
    match op with
    | .streamGet i =>
      if i = id then (if (get_job s i).1.isSome then rest + 1 else rest) else rest
    | _ => rest

-- ── Pointwise lemmas about the broker operations ─────────────────────

theorem create_job_self (jobs : Registry) (id : String) (req : QueryRequest) (now : ℤ) :
    create_job jobs id req now id =
      some { request := req, created_at := now, consumed := false } := by
  simp [create_job]

theorem create_job_other (jobs : Registry) (id : String) (req : QueryRequest) (now : ℤ)
    (k : String) (h : k ≠ id) : create_job jobs id req now k = jobs k := by
  simp [create_job, h]

theorem cleanup_expired_apply (jobs : Registry) (now : ℤ) (k : String) :
    cleanup_expired jobs now k =
      match jobs k with
      | none => none
      | some j => if now - j.created_at > JOB_TTL_SECS then none else some j := rfl

theorem get_job_absent (jobs : Registry) (id : String) (h : jobs id = none) :
    get_job jobs id = (none, jobs) := by
  simp [get_job, h]

theorem get_job_consumed (jobs : Registry) (id : String) (j : Job)
    (h : jobs id = some j) (hc : j.consumed = true) :
    get_job jobs id = (none, jobs) := by
  simp [get_job, h, hc]

theorem get_job_fresh (jobs : Registry) (id : String) (j : Job)
    (h : jobs id = some j) (hc : j.consumed = false) :
    get_job jobs id =
      (some { j with consumed := true },
       fun k => if k = id then some { j with consumed := true } else jobs k) := by
  simp [get_job, h, hc]

theorem get_job_state_other (jobs : Registry) (id k : String) (h : k ≠ id) :
    (get_job jobs id).2 k = jobs k := by
  unfold get_job
  cases hj : jobs id with
  | none => rfl
  | some j =>
    by_cases hc : j.consumed <;> simp [hj, hc, h]

-- ── Shared concrete request for witnesses ────────────────────────────

/-- A concrete request used by witnesses and counterexamples. -/
def reqRSI : QueryRequest :=
  { question := "What is RSI?", trade_analysis := "none", prompt_overrides := none }

-- ── Claim C4 ─────────────────────────────────────────────────────────

/-- Claim C4 (confirmed): after `_cleanup_expired` runs at time `now`,
every stored job whose age exceeds the 300-second TTL is absent from the
registry (whatever its consumed flag), every job whose age does not
exceed the TTL is retained unchanged, and the submission endpoint
invokes the expiry sweep at its start (its result is exactly
`_create_job` applied after `_cleanup_expired`). -/
theorem cleanup_expired_spec :
    (∀ (jobs : Registry) (now : ℤ) (id : String) (j : Job), jobs id = some j →
       (now - j.created_at > JOB_TTL_SECS → cleanup_expired jobs now id = none) ∧
       (¬ now - j.created_at > JOB_TTL_SECS → cleanup_expired jobs now id = some j)) ∧
    (∀ (jobs : Registry) (id : String) (req : QueryRequest) (t1 t2 : ℤ),
       submit_query jobs id req t1 t2 = (create_job (cleanup_expired jobs t1) id req t2, id)) := by
  refine ⟨fun jobs now id j hj => ?_, fun _ _ _ _ _ => rfl⟩
  constructor
  · intro hage
    simp [cleanup_expired, hj, hage]
  · intro hage
    simp [cleanup_expired, hj, hage]

/-- Concrete registry for the C4 witness: one consumed job created at
time 0, one unconsumed job created at time 350. -/
def regC4 : Registry :=
  fun k =>
    if k = "oldjob123456" then some { request := reqRSI, created_at := 0, consumed := true }
    else if k = "newjob123456" then some { request := reqRSI, created_at := 350, consumed := false }
    else none

theorem cleanup_expired_spec_witness :
    regC4 "oldjob123456" = some { request := reqRSI, created_at := 0, consumed := true } ∧
    (400 : ℤ) - (0 : ℤ) > JOB_TTL_SECS ∧
    cleanup_expired regC4 400 "oldjob123456" = none ∧
    regC4 "newjob123456" = some { request := reqRSI, created_at := 350, consumed := false } ∧
    ¬ ((400 : ℤ) - (350 : ℤ) > JOB_TTL_SECS) ∧
    cleanup_expired regC4 400 "newjob123456" =
      some { request := reqRSI, created_at := 350, consumed := false } :=
  ⟨by decide, by decide,
   (cleanup_expired_spec.1 regC4 400 "oldjob123456"
     { request := reqRSI, created_at := 0, consumed := true } (by decide)).1 (by decide),
   by decide, by decide,
   (cleanup_expired_spec.1 regC4 400 "newjob123456"
     { request := reqRSI, created_at := 350, consumed := false } (by decide)).2 (by decide)⟩

-- ── Claim C10 ────────────────────────────────────────────────────────

/-- Claim C10 (confirmed): a successful `_get_job` flips only the target
job's consumed flag — the entry stays in the registry, its request and
creation time are unchanged, the stored flag was previously false, and
every other key is untouched; a failed `_get_job` leaves the registry
pointwise unchanged. -/
theorem get_job_frame (jobs : Registry) (id : String) :
    (∀ j, (get_job jobs id).1 = some j →
       jobs id = some { j with consumed := false } ∧
       j.consumed = true ∧
       (get_job jobs id).2 id = some j ∧
       ∀ k, k ≠ id → (get_job jobs id).2 k = jobs k) ∧
    ((get_job jobs id).1 = none → ∀ k, (get_job jobs id).2 k = jobs k) := by
  constructor
  · intro j hj
    cases hcase : jobs id with
    | none => simp [get_job, hcase] at hj
    | some j0 =>
      obtain ⟨q, t, c⟩ := j0
      cases c with
      | true => simp [get_job, hcase] at hj
      | false =>
        simp only [get_job, hcase, Bool.false_eq_true, if_false] at hj
        simp only [Option.some.injEq] at hj
        subst hj
        refine ⟨?_, rfl, ?_, ?_⟩
        · rfl
        · simp [get_job, hcase]
        · intro k hk
          simp [get_job, hcase, hk]
  · intro hnone k
    cases hcase : jobs id with
    | none => simp [get_job, hcase]
    | some j0 =>
      obtain ⟨q, t, c⟩ := j0
      cases c with
      | true => simp [get_job, hcase]
      | false => simp [get_job, hcase] at hnone

/-- Concrete registry for the C10 witness: one unconsumed job. -/
def regC10 : Registry :=
  fun k =>
    if k = "aaaabbbbcccc" then some { request := reqRSI, created_at := 7, consumed := false }
    else none

theorem get_job_frame_witness :
    (get_job regC10 "aaaabbbbcccc").1 =
      some { request := reqRSI, created_at := 7, consumed := true } ∧
    regC10 "aaaabbbbcccc" = some { request := reqRSI, created_at := 7, consumed := false } ∧
    (get_job regC10 "aaaabbbbcccc").2 "aaaabbbbcccc" =
      some { request := reqRSI, created_at := 7, consumed := true } ∧
    (get_job regC10 "aaaabbbbcccc").2 "otherid00000" = regC10 "otherid00000" ∧
    (get_job regC10 "missing00000").1 = none ∧
    (get_job regC10 "missing00000").2 "aaaabbbbcccc" = regC10 "aaaabbbbcccc" :=
  ⟨by decide,
   ((get_job_frame regC10 "aaaabbbbcccc").1
     { request := reqRSI, created_at := 7, consumed := true } (by decide)).1,
   ((get_job_frame regC10 "aaaabbbbcccc").1
     { request := reqRSI, created_at := 7, consumed := true } (by decide)).2.2.1,
   ((get_job_frame regC10 "aaaabbbbcccc").1
     { request := reqRSI, created_at := 7, consumed := true } (by decide)).2.2.2
     "otherid00000" (by decide),
   by decide,
   (get_job_frame regC10 "missing00000").2 (by decide) "aaaabbbbcccc"⟩

-- ── Claim C3 ─────────────────────────────────────────────────────────

/-- Registry holding one unconsumed job created at time 0, used to
refute the expiry clause of claim C3. -/
def regC3 : Registry := create_job emptyRegistry "a1b2c3d4e5f6" reqRSI 0

/-- Claim C3 counterexample: a job created at time 0, with no intervening
operation, is still streamed by a GET although its age at GET time
(400 s) exceeds the TTL — the endpoint never reads the clock, so the
expiry case alone does not produce 410 Gone. -/
theorem stream_expired_counterexample :
    regC3 "a1b2c3d4e5f6" = some { request := reqRSI, created_at := 0, consumed := false } ∧
    (400 : ℤ) - (0 : ℤ) > JOB_TTL_SECS ∧
    (streamEndpoint regC3 "a1b2c3d4e5f6").1 = StreamResult.streamOk reqRSI := by
  refine ⟨by decide, by decide, by decide⟩

/-- Claim C3 (corrected): a GET on `/stream/{job_id}` returns 410 Gone
exactly when the id is absent from the registry (never issued, or removed
by an expiry sweep) or the stored job is already consumed; expiry by age
alone produces 410 only after some submission has run the lazy sweep —
after a sweep at a time when the job's age exceeds the TTL, the GET does
return 410. -/
theorem stream_gone_characterization :
    (∀ (jobs : Registry) (id : String),
       (streamEndpoint jobs id).1 = .gone goneDetail ↔
         jobs id = none ∨ ∃ j, jobs id = some j ∧ j.consumed = true) ∧
    (∀ (jobs : Registry) (now : ℤ) (id : String) (j : Job),
       jobs id = some j → now - j.created_at > JOB_TTL_SECS →
       (streamEndpoint (cleanup_expired jobs now) id).1 = .gone goneDetail) := by
  constructor
  · intro jobs id
    cases hcase : jobs id with
    | none => simp [streamEndpoint, get_job, hcase]
    | some j0 =>
      obtain ⟨q, t, c⟩ := j0
      cases c with
      | true => simp [streamEndpoint, get_job, hcase]
      | false => simp [streamEndpoint, get_job, hcase]
  · intro jobs now id j hj hage
    have habs : cleanup_expired jobs now id = none := by
      simp [cleanup_expired, hj, hage]
    simp [streamEndpoint, get_job, habs]

theorem stream_gone_characterization_witness :
    regC3 "a1b2c3d4e5f6" = some { request := reqRSI, created_at := 0, consumed := false } ∧
    (400 : ℤ) - (0 : ℤ) > JOB_TTL_SECS ∧
    (streamEndpoint (cleanup_expired regC3 400) "a1b2c3d4e5f6").1 = .gone goneDetail :=
  ⟨by decide, by decide,
   stream_gone_characterization.2 regC3 400 "a1b2c3d4e5f6"
     { request := reqRSI, created_at := 0, consumed := false } (by decide) (by decide)⟩

-- ── Claim C1: at-most-once consumption along broker traces ───────────

/-- A job id that can never be successfully consumed again: its entry is
absent or already marked consumed. -/
def ConsumedOrGone (s : Registry) (id : String) : Prop :=
  s id = none ∨ ∃ j, s id = some j ∧ j.consumed = true

theorem consumedOrGone_get_job (s : Registry) (id : String)
    (h : ConsumedOrGone s id) : get_job s id = (none, s) := by
  rcases h with h | ⟨j, hj, hc⟩
  · exact get_job_absent s id h
  · exact get_job_consumed s id j hj hc

theorem consumedOrGone_cleanup (s : Registry) (id : String) (now : ℤ)
    (h : ConsumedOrGone s id) : ConsumedOrGone (cleanup_expired s now) id := by
  rcases h with h | ⟨j, hj, hc⟩
  · left
    simp [cleanup_expired, h]
  · by_cases hage : now - j.created_at > JOB_TTL_SECS
    · left
      simp [cleanup_expired, hj, hage]
    · right
      exact ⟨j, by simp [cleanup_expired, hj, hage], hc⟩

theorem consumedOrGone_create (s : Registry) (id id' : String) (req : QueryRequest)
    (t : ℤ) (hne : id' ≠ id) (h : ConsumedOrGone s id) :
    ConsumedOrGone (create_job s id' req t) id := by
  unfold ConsumedOrGone at h ⊢
  rwa [create_job_other s id' req t id (Ne.symm hne)]

theorem streamEndpoint_state (s : Registry) (i : String) :
    (streamEndpoint s i).2 = (get_job s i).2 := by
  unfold streamEndpoint
  rcases get_job s i with ⟨(_ | j), s'⟩ <;> rfl

theorem consumedOrGone_stream (s : Registry) (id i : String)
    (h : ConsumedOrGone s id) : ConsumedOrGone ((streamEndpoint s i).2) id := by
  rw [streamEndpoint_state]
  by_cases hi : i = id
  · subst hi
    rw [consumedOrGone_get_job s i h]
    exact h
  · unfold ConsumedOrGone at h ⊢
    rwa [get_job_state_other s i id (Ne.symm hi)]

theorem consumedOrGone_runOp (s : Registry) (id : String) (op : BrokerOp)
    (hop : ∀ req t1 t2, op ≠ .submitOp id req t1 t2)
    (h : ConsumedOrGone s id) : ConsumedOrGone (runOp s op) id := by
  cases op with
  | submitOp i req t1 t2 =>
    have hne : i ≠ id := by
      intro e
      subst e
      exact hop req t1 t2 rfl
    exact consumedOrGone_create _ id i req t2 hne (consumedOrGone_cleanup s id t1 h)
  | streamGet i => exact consumedOrGone_stream s id i h
  | expireOp now => exact consumedOrGone_cleanup s id now h

/-- Part of the success case of `_get_job`, as a reusable helper: after a
successful consume the stored entry is the returned (consumed) job. -/
theorem get_job_success_state (s : Registry) (id : String) (j : Job)
    (h : (get_job s id).1 = some j) :
    (get_job s id).2 id = some j ∧ j.consumed = true := by
  cases hcase : s id with
  | none => simp [get_job, hcase] at h
  | some j0 =>
    obtain ⟨q, t, c⟩ := j0
    cases c with
    | true => simp [get_job, hcase] at h
    | false =>
      simp only [get_job, hcase, Bool.false_eq_true, if_false, Option.some.injEq] at h
      subst h
      simp [get_job, hcase]

theorem countConsumes_gone (ops : List BrokerOp) :
    ∀ (s : Registry) (id : String), ConsumedOrGone s id → id ∉ submitIds ops →
      countConsumes s ops id = 0 := by
  induction ops with
  | nil => intro s id _ _; rfl
  | cons op ops ih =>
    intro s id h hns
    cases op with
    | submitOp i req t1 t2 =>
      have hmem : ¬(id = i ∨ id ∈ submitIds ops) := by
        simpa [submitIds, List.mem_cons] using hns
      push_neg at hmem
      show countConsumes (runOp s (.submitOp i req t1 t2)) ops id = 0
      exact ih _ id
        (consumedOrGone_runOp s id _ (by intro _ _ _ hc; cases hc; exact hmem.1 rfl) h)
        hmem.2
    | streamGet i =>
      have hns' : id ∉ submitIds ops := by simpa [submitIds] using hns
      by_cases hi : i = id
      · subst hi
        have hg := consumedOrGone_get_job s i h
        show (if i = i then
                (if (get_job s i).1.isSome then countConsumes (runOp s (.streamGet i)) ops i + 1
                 else countConsumes (runOp s (.streamGet i)) ops i)
              else countConsumes (runOp s (.streamGet i)) ops i) = 0
        rw [if_pos rfl, hg]
        simp only [Option.isSome_none, Bool.false_eq_true, if_false]
        exact ih _ i (consumedOrGone_stream s i i h) hns'
      · show (if i = id then
                (if (get_job s i).1.isSome then countConsumes (runOp s (.streamGet i)) ops id + 1
                 else countConsumes (runOp s (.streamGet i)) ops id)
              else countConsumes (runOp s (.streamGet i)) ops id) = 0
        rw [if_neg hi]
        exact ih _ id (consumedOrGone_stream s id i h) hns'
    | expireOp now =>
      have hns' : id ∉ submitIds ops := by simpa [submitIds] using hns
      exact ih _ id (consumedOrGone_cleanup s id now h) hns'

theorem countConsumes_le_one_aux (ops : List BrokerOp) :
    ∀ (s : Registry) (id : String), id ∉ submitIds ops →
      countConsumes s ops id ≤ 1 := by
  induction ops with
  | nil => intro s id _; exact Nat.zero_le 1
  | cons op ops ih =>
    intro s id hns
    cases op with
    | submitOp i req t1 t2 =>
      have hmem : ¬(id = i ∨ id ∈ submitIds ops) := by
        simpa [submitIds, List.mem_cons] using hns
      push_neg at hmem
      exact ih _ id hmem.2
    | streamGet i =>
      have hns' : id ∉ submitIds ops := by simpa [submitIds] using hns
      by_cases hi : i = id
      · subst hi
        show (if i = i then
                (if (get_job s i).1.isSome then countConsumes (runOp s (.streamGet i)) ops i + 1
                 else countConsumes (runOp s (.streamGet i)) ops i)
              else countConsumes (runOp s (.streamGet i)) ops i) ≤ 1
        rw [if_pos rfl]
        cases hg : (get_job s i).1 with
        | none =>
          simp only [Option.isSome_none, Bool.false_eq_true, if_false]
          exact ih _ i hns'
        | some j =>
          simp only [Option.isSome_some, if_true]
          have hgone : ConsumedOrGone ((streamEndpoint s i).2) i := by
            rw [streamEndpoint_state]
            right
            exact ⟨j, (get_job_success_state s i j hg).1, (get_job_success_state s i j hg).2⟩
          have h0 := countConsumes_gone ops ((streamEndpoint s i).2) i hgone hns'
          show countConsumes ((streamEndpoint s i).2) ops i + 1 ≤ 1
          omega
      · show (if i = id then
                (if (get_job s i).1.isSome then countConsumes (runOp s (.streamGet i)) ops id + 1
                 else countConsumes (runOp s (.streamGet i)) ops id)
              else countConsumes (runOp s (.streamGet i)) ops id) ≤ 1
        rw [if_neg hi]
        exact ih _ id hns'
    | expireOp now =>
      have hns' : id ∉ submitIds ops := by simpa [submitIds] using hns
      exact ih _ id hns'

theorem countConsumes_le_one_main (ops : List BrokerOp) :
    ∀ (s : Registry) (id : String), (submitIds ops).Nodup → s id = none →
      countConsumes s ops id ≤ 1 := by
  induction ops with
  | nil => intro s id _ _; exact Nat.zero_le 1
  | cons op ops ih =>
    intro s id hnd habs
    cases op with
    | submitOp i req t1 t2 =>
      have hnd' : (submitIds ops).Nodup ∧ i ∉ submitIds ops := by
        have := hnd
        simp only [submitIds, List.nodup_cons] at this
        exact ⟨this.2, this.1⟩
      by_cases hi : i = id
      · subst hi
        exact countConsumes_le_one_aux ops _ i hnd'.2
      · have habs' : (runOp s (.submitOp i req t1 t2)) id = none := by
          show create_job (cleanup_expired s t1) i req t2 id = none
          rw [create_job_other _ i req t2 id (Ne.symm hi)]
          simp [cleanup_expired, habs]
        exact ih _ id hnd'.1 habs'
    | streamGet i =>
      have hnd' : (submitIds ops).Nodup := by simpa [submitIds] using hnd
      by_cases hi : i = id
      · subst hi
        have hg := get_job_absent s i habs
        show (if i = i then
                (if (get_job s i).1.isSome then countConsumes (runOp s (.streamGet i)) ops i + 1
                 else countConsumes (runOp s (.streamGet i)) ops i)
              else countConsumes (runOp s (.streamGet i)) ops i) ≤ 1
        rw [if_pos rfl, hg]
        simp only [Option.isSome_none, Bool.false_eq_true, if_false]
        have hstate : (runOp s (.streamGet i)) i = none := by
          show (streamEndpoint s i).2 i = none
          rw [streamEndpoint_state, hg]
          exact habs
        exact ih _ i hnd' hstate
      · show (if i = id then
                (if (get_job s i).1.isSome then countConsumes (runOp s (.streamGet i)) ops id + 1
                 else countConsumes (runOp s (.streamGet i)) ops id)
              else countConsumes (runOp s (.streamGet i)) ops id) ≤ 1
        rw [if_neg hi]
        have hstate : (runOp s (.streamGet i)) id = none := by
          show (streamEndpoint s i).2 id = none
          rw [streamEndpoint_state, get_job_state_other s i id (Ne.symm hi)]
          exact habs
        exact ih _ id hnd' hstate
    | expireOp now =>
      have hnd' : (submitIds ops).Nodup := by simpa [submitIds] using hnd
      have hstate : (runOp s (.expireOp now)) id = none := by
        show cleanup_expired s now id = none
        simp [cleanup_expired, habs]
      exact ih _ id hnd' hstate

/-- Claim C1 (corrected): along any broker trace from the empty registry in
which no job id is issued twice (uuid4-truncated ids are only
collision-resistant; `_create_job` performs no collision check, so
freshness is a hypothesis, not a theorem), at most one consume call on a
given id ever succeeds; and the first consume of a stored, unconsumed job
returns the originally submitted request (with the consumed flag now
set), whether or not the job has outlived the TTL. -/
theorem consume_at_most_once :
    (∀ (ops : List BrokerOp) (id : String), (submitIds ops).Nodup →
       countConsumes emptyRegistry ops id ≤ 1) ∧
    (∀ (s : Registry) (id : String) (j : Job), s id = some j → j.consumed = false →
       (get_job s id).1 = some { j with consumed := true }) := by
  constructor
  · intro ops id hnd
    exact countConsumes_le_one_main ops emptyRegistry id hnd rfl
  · intro s id j hj hc
    rw [get_job_fresh s id j hj hc]

/-- Broker trace that resubmits the same (colliding) job id after it was
consumed: both consume calls succeed, refuting claim C1 as stated for
arbitrary operation sequences. -/
def opsC1dup : List BrokerOp :=
  [.submitOp "dupdupdupdup" reqRSI 0 0, .streamGet "dupdupdupdup",
   .submitOp "dupdupdupdup" reqRSI 1 1, .streamGet "dupdupdupdup"]

/-- Claim C1 counterexample: if the uuid oracle ever returns the same
12-hex-character id twice, the second submission overwrites the consumed
job with a fresh unconsumed one and a second consume on the same id
succeeds — two successful consumes on one identifier. -/
theorem consume_twice_counterexample :
    countConsumes emptyRegistry opsC1dup "dupdupdupdup" = 2 := by decide

/-- Trace for the C1 witness: one submission, two consume attempts. -/
def opsC1w : List BrokerOp :=
  [.submitOp "aaaa11112222" reqRSI 0 0, .streamGet "aaaa11112222",
   .streamGet "aaaa11112222"]

theorem consume_at_most_once_witness :
    (submitIds opsC1w).Nodup ∧
    countConsumes emptyRegistry opsC1w "aaaa11112222" ≤ 1 ∧
    (get_job (create_job emptyRegistry "aaaa11112222" reqRSI 0) "aaaa11112222").1 =
      some { request := reqRSI, created_at := 0, consumed := true } :=
  ⟨by decide, consume_at_most_once.1 opsC1w "aaaa11112222" (by decide),
   consume_at_most_once.2 (create_job emptyRegistry "aaaa11112222" reqRSI 0)
     "aaaa11112222" { request := reqRSI, created_at := 0, consumed := false }
     (by decide) rfl⟩

-- ── Claim C9: freshness of issued job identifiers ────────────────────

/-- Run a sequence of `POST /query` submissions from registry `s`, the
`k`-th submission taking its job id from the uuid oracle `g` at index
`k`; returns the final registry and the ids handed back, in order. -/
def runSubmitsAux (g : Nat → String) :
    Nat → Registry → List (QueryRequest × ℤ × ℤ) → Registry × List String
  | _, s, [] => (s, [])
  | k, s, (req, t1, t2) :: rest =>
    let id := g k
    let s' := (submit_query s id req t1 t2).1
    let out := runSubmitsAux g (k + 1) s' rest
    (out.1, id :: out.2)

/-- All submissions of the process lifetime, starting from the empty
registry and the first oracle draw. -/
def runSubmits (g : Nat → String) (reqs : List (QueryRequest × ℤ × ℤ)) :
    Registry × List String :=
  runSubmitsAux g 0 emptyRegistry reqs

theorem runSubmitsAux_ids (g : Nat → String) (reqs : List (QueryRequest × ℤ × ℤ)) :
    ∀ (k : Nat) (s : Registry),
      (runSubmitsAux g k s reqs).2 = (List.range' k reqs.length).map g := by
  induction reqs with
  | nil => intro k s; rfl
  | cons h rest ih =>
    intro k s
    obtain ⟨req, t1, t2⟩ := h
    simp only [runSubmitsAux, List.length_cons, List.range'_succ, List.map_cons]
    exact congrArg _ (ih (k + 1) _)

/-- Claim C9 (corrected, amended): provided the uuid oracle never repeats
a value (the code truncates `uuid4().hex` to 12 characters and performs
no collision check, so this is an assumption about the randomness, not
something the code enforces), every submission returns a job id that no
earlier submission returned. -/
theorem submit_ids_fresh (g : Nat → String) (hg : Function.Injective g)
    (reqs : List (QueryRequest × ℤ × ℤ)) :
    ((runSubmits g reqs).2).Nodup := by
  rw [runSubmits, runSubmitsAux_ids]
  exact List.Nodup.map hg (List.nodup_range' 0 reqs.length)

/-- Claim C9 counterexample: a uuid oracle that repeats a 12-hex-character
value makes the second submission return an id already issued to the
first — the returned id list has a duplicate.  Nothing in `_create_job`
prevents this; uniqueness is only probabilistic. -/
theorem submit_duplicate_counterexample :
    ¬ ((runSubmits (fun _ => "c0ffee000000") [(reqRSI, 0, 0), (reqRSI, 1, 1)]).2).Nodup := by
  decide

/-- An injective id oracle for the C9 witness. -/
def gInjOracle (n : Nat) : String := String.mk (List.replicate n 'x')

theorem gInjOracle_injective : Function.Injective gInjOracle := by
  intro a b h
  have h2 : List.replicate a 'x' = List.replicate b 'x' := congrArg String.data h
  have h3 := congrArg List.length h2
  simpa using h3

theorem submit_ids_fresh_witness :
    ((runSubmits gInjOracle [(reqRSI, 0, 0), (reqRSI, 1, 1), (reqRSI, 2, 2)]).2).Nodup :=
  submit_ids_fresh gInjOracle gInjOracle_injective [(reqRSI, 0, 0), (reqRSI, 1, 1), (reqRSI, 2, 2)]

-- ── Query-side documents and context assembly (src/search/query) ─────

/-- langchain `Document` as used by the query pipeline: text plus a
string-keyed metadata dict (modelled as an association list in insertion
order). -/
structure Document where
  page_content : String
  metadata : List (String × String)
deriving DecidableEq

/-- The `" > "`-joined values of the metadata keys starting with `"h"`,
keys sorted — src/search/query/pipeline.py lines 130-133. -/
def headerTrail (m : List (String × String)) : String :=
  String.intercalate " > "
    (((List.insertionSort (fun a b => a.1 ≤ b.1) m).filter
        (fun p => p.1.startsWith "h")).map Prod.snd)

/-- One labelled context block — src/search/query/pipeline.py lines 125-135. -/
def renderBlock (doc : Document) : String :=
  let url := (doc.metadata.lookup "source_url").getD ""
  let filename := (doc.metadata.lookup "filename").getD "unknown"
  let label := if url = "" then filename else url
  let headers := headerTrail doc.metadata
  let header_line := if headers = "" then "" else "  Section: " ++ headers ++ "\n"
  "[" ++ label ++ "]\n" ++ header_line ++ doc.page_content

/-- Loop of `_format_docs` (src/search/query/pipeline.py lines 117-135):
`seen` is the set of already-emitted 200-character signatures, `parts`
the blocks emitted so far. -/
def formatDocsAux (seen : List String) (parts : List String) :
    List Document → List String
  | [] => parts
  | doc :: docs =>
    let sig := doc.page_content.take 200
    if sig ∈ seen then formatDocsAux seen parts docs
    else formatDocsAux (sig :: seen) (parts ++ [renderBlock doc]) docs

/-- The list of context blocks `_format_docs` assembles. -/
def formatParts (docs : List Document) : List String :=
  formatDocsAux [] [] docs

/-- src/search/query/pipeline.py `_format_docs` (lines 110-136). -/
def format_docs (docs : List Document) : String :=
  String.intercalate "\n\n" (formatParts docs)

-- ── RagAnswer schema and pydantic validation (src/search/schemas.py) ──

inductive DifficultyLevel where
  | beginner | intermediate | advanced | unknown
deriving DecidableEq

inductive ConfidenceLevel where
  | high | medium | low
deriving DecidableEq

/-- src/search/schemas.py `DeepDiveLink`. -/
structure DeepDiveLink where
  title : String
  url : String
deriving DecidableEq

/-- src/search/schemas.py `RagAnswer` (lines 75-122): the extended
curriculum-style answer.  `difficulty`, `lesson_title`, `answer`,
`key_takeaway`, `reflection_question` and `confidence` are required
(declared with no default); the three list fields default to `[]`. -/
structure RagAnswer where
  difficulty : DifficultyLevel
  lesson_title : String
  answer : String
  key_takeaway : String
  reflection_question : String
  deep_dive_links : List DeepDiveLink
  next_topics : List String
  confidence : ConfidenceLevel
  sources : List String
deriving DecidableEq

/-- The keyword arguments of a `RagAnswer(...)` construction: `none`
means the field was not passed. -/
structure RagAnswerArgs where
  difficulty : Option DifficultyLevel
  lesson_title : Option String
  answer : Option String
  key_takeaway : Option String
  reflection_question : Option String
  deep_dive_links : Option (List DeepDiveLink)
  next_topics : Option (List String)
  confidence : Option ConfidenceLevel
  sources : Option (List String)
deriving DecidableEq

/-- The required fields absent from a construction, in declaration order
(pydantic reports all missing required fields of a model). -/
def ragAnswerMissing (a : RagAnswerArgs) : List String :=
  (if a.difficulty.isNone then ["difficulty"] else []) ++
  (if a.lesson_title.isNone then ["lesson_title"] else []) ++
  (if a.answer.isNone then ["answer"] else []) ++
  (if a.key_takeaway.isNone then ["key_takeaway"] else []) ++
  (if a.reflection_question.isNone then ["reflection_question"] else []) ++
  (if a.confidence.isNone then ["confidence"] else [])

/-- Pydantic construction of a `RagAnswer`: succeeds when every required
field is supplied (optional list fields default to `[]`), otherwise
raises a `ValidationError` naming the missing fields. -/
def validateRagAnswer (a : RagAnswerArgs) : Except (List String) RagAnswer :=
  match a.difficulty, a.lesson_title, a.answer, a.key_takeaway,
        a.reflection_question, a.confidence with
  | some d, some lt, some ans, some kt, some rq, some c =>
    .ok { difficulty := d, lesson_title := lt, answer := ans, key_takeaway := kt,
          reflection_question := rq, deep_dive_links := a.deep_dive_links.getD [],
          next_topics := a.next_topics.getD [], confidence := c,
          sources := a.sources.getD [] }
  | _, _, _, _, _, _ => .error (ragAnswerMissing a)

/-- src/search/query/pipeline.py `_default_answer` (lines 139-145):
`RagAnswer(difficulty="unknown", answer="INSUFFICIENT_CONTEXT",
confidence="low", sources=[])` — note `lesson_title`, `key_takeaway` and
`reflection_question` are not passed although `RagAnswer` requires them. -/
def default_answer : Except (List String) RagAnswer :=
  validateRagAnswer
    { difficulty := some .unknown, lesson_title := none,
      answer := some "INSUFFICIENT_CONTEXT", key_takeaway := none,
      reflection_question := none, deep_dive_links := none, next_topics := none,
      confidence := some .low, sources := some [] }

/-- src/search/query/pipeline.py `answer_question` (lines 151-210).  The
vector store is `none` when no FAISS index exists (the
`FileNotFoundError` branch); otherwise it retrieves documents for the
question.  The LLM-and-parser chain is an oracle taking the question,
the trade analysis and the assembled context. -/
def answer_question (vectorstore : Option (String → List Document))
    (question : String) (trade_analysis : String)
    (llm : String → String → String → Except (List String) RagAnswer) :
    Except (List String) RagAnswer :=
  match vectorstore with
  | none => default_answer
  | some retrieve =>
    let docs := retrieve question
    if docs.isEmpty then default_answer
    else llm question trade_analysis (format_docs docs)

/-- Claim C2 (code_bug): with no index, or with empty retrieval, the sync
query path calls `_default_answer`, whose `RagAnswer(...)` construction
omits the required fields `lesson_title`, `key_takeaway` and
`reflection_question` — pydantic raises a `ValidationError` instead of
returning the claimed default answer, so the operation raises rather
than never raising. -/
theorem answer_question_default_raises :
    (∀ (question trade_analysis : String)
       (llm : String → String → String → Except (List String) RagAnswer),
       answer_question none question trade_analysis llm =
         .error ["lesson_title", "key_takeaway", "reflection_question"] ∧
       answer_question (some fun _ => []) question trade_analysis llm =
         .error ["lesson_title", "key_takeaway", "reflection_question"]) ∧
    default_answer = .error ["lesson_title", "key_takeaway", "reflection_question"] :=
  ⟨fun _ _ _ => ⟨rfl, rfl⟩, rfl⟩

-- ── Claim C8: context assembly deduplicates by 200-char prefix ───────

theorem filter_length_notin_cons (sig : String) (seen : List String)
    (hsig : sig ∉ seen) :
    ∀ (L : List String), L.Nodup → sig ∈ L →
      (L.filter (fun x => x ∉ seen)).length =
        (L.filter (fun x => x ∉ (sig :: seen))).length + 1 := by
  intro L
  induction L with
  | nil => intro _ h; cases h
  | cons a L ih =>
    intro hnd hmem
    have hndL : L.Nodup := (List.nodup_cons.mp hnd).2
    have hna : a ∉ L := (List.nodup_cons.mp hnd).1
    by_cases ha : a = sig
    · subst ha
      have heq : L.filter (fun x => x ∉ seen) = L.filter (fun x => x ∉ (a :: seen)) := by
        apply List.filter_congr
        intro x hx
        have hxa : x ≠ a := by
          intro e
          subst e
          exact hna hx
        simp [List.mem_cons, hxa]
      have h1 : (decide (a ∉ seen)) = true := by simpa using hsig
      have h2 : (decide (a ∉ (a :: seen))) = false := by simp
      simp only [List.filter_cons, h1, h2, if_true, Bool.false_eq_true, if_false,
        List.length_cons, heq]
    · have hmem' : sig ∈ L := by
        rcases List.mem_cons.mp hmem with h | h
        · exact absurd h.symm ha
        · exact h
      have hrec := ih hndL hmem'
      by_cases hseen : a ∈ seen
      · have h1 : (decide (a ∉ seen)) = false := by simpa using hseen
        have h2 : (decide (a ∉ (sig :: seen))) = false := by
          simp [List.mem_cons, hseen]
        simp only [List.filter_cons, h1, h2, Bool.false_eq_true, if_false]
        exact hrec
      · have h1 : (decide (a ∉ seen)) = true := by simpa using hseen
        have h2 : (decide (a ∉ (sig :: seen))) = true := by
          simp [List.mem_cons, ha, hseen]
        simp only [List.filter_cons, h1, h2, if_true, List.length_cons]
        omega

theorem filter_length_notin_cons_absent (sig : String) (seen : List String)
    (L : List String) (hL : sig ∉ L) :
    (L.filter (fun x => x ∉ seen)).length =
      (L.filter (fun x => x ∉ (sig :: seen))).length := by
  have heq : L.filter (fun x => x ∉ seen) = L.filter (fun x => x ∉ (sig :: seen)) := by
    apply List.filter_congr
    intro x hx
    have hxs : x ≠ sig := by
      intro e
      subst e
      exact hL hx
    simp [List.mem_cons, hxs]
  rw [heq]

theorem formatDocsAux_length (docs : List Document) :
    ∀ (seen parts : List String),
      (formatDocsAux seen parts docs).length =
        parts.length +
          (((docs.map (fun d => d.page_content.take 200)).dedup.filter
              (fun x => x ∉ seen)).length) := by
  induction docs with
  | nil => intro seen parts; simp [formatDocsAux]
  | cons doc docs ih =>
    intro seen parts
    simp only [List.map_cons]
    by_cases hmem : doc.page_content.take 200 ∈ seen
    · have hstep :
        formatDocsAux seen parts (doc :: docs) = formatDocsAux seen parts docs := by
        simp [formatDocsAux, hmem]
      rw [hstep, ih seen parts]
      by_cases hrest : doc.page_content.take 200 ∈ docs.map (fun d => d.page_content.take 200)
      · rw [List.dedup_cons_of_mem hrest]
      · rw [List.dedup_cons_of_not_mem hrest]
        have h2 : (decide (doc.page_content.take 200 ∉ seen)) = false := by
          simpa using hmem
        simp only [List.filter_cons, h2, Bool.false_eq_true, if_false]
    · have hstep :
        formatDocsAux seen parts (doc :: docs) =
          formatDocsAux (doc.page_content.take 200 :: seen)
            (parts ++ [renderBlock doc]) docs := by
        simp [formatDocsAux, hmem]
      rw [hstep, ih]
      simp only [List.length_append, List.length_cons, List.length_nil]
      by_cases hrest : doc.page_content.take 200 ∈ docs.map (fun d => d.page_content.take 200)
      · rw [List.dedup_cons_of_mem hrest]
        have hdedup : doc.page_content.take 200 ∈
            (docs.map (fun d => d.page_content.take 200)).dedup :=
          List.mem_dedup.mpr hrest
        rw [filter_length_notin_cons (doc.page_content.take 200) seen hmem _
              (List.nodup_dedup _) hdedup]
        omega
      · rw [List.dedup_cons_of_not_mem hrest]
        have h2 : (decide (doc.page_content.take 200 ∉ seen)) = true := by
          simpa using hmem
        have hnd : doc.page_content.take 200 ∉
            (docs.map (fun d => d.page_content.take 200)).dedup := by
          intro hc
          exact hrest (List.mem_dedup.mp hc)
        simp only [List.filter_cons, h2, if_true, List.length_cons]
        rw [filter_length_notin_cons_absent (doc.page_content.take 200) seen _ hnd]
        omega

/-- Claim C8 (confirmed): `_format_docs` emits exactly one labelled block
per distinct first-200-character prefix of the retrieved chunks — any
two chunks sharing their first 200 characters contribute a single block
to the assembled context. -/
theorem format_docs_one_block_per_prefix (docs : List Document) :
    (formatParts docs).length =
      ((docs.map (fun d => d.page_content.take 200)).dedup).length := by
  have h := formatDocsAux_length docs [] []
  simp only [formatParts, List.length_nil, Nat.zero_add] at h ⊢
  rw [h]
  congr 1
  apply List.filter_eq_self.mpr
  intro x _
  simp

-- ── Prompt composer (src/search/prompt.py) ───────────────────────────

/-- One value of the `response_depth` dict of prompt.json. -/
structure DepthRow where
  target_length : String
  style : String
deriving DecidableEq

/-- One entry of the `examples` list of prompt.json.  The
`json.dumps(ex["expected_output"], ensure_ascii=False)` serialization is
abstracted as an opaque string datum. -/
structure ExampleRec where
  label : String
  difficulty : String
  trade_analysis : String
  question : String
  context : String
  expected_output_json : String
deriving DecidableEq

/-- Modelled from the spec: the Prompt Section Library (spec section 3)
loaded once from `prompt.json`; the data file is not among the embedded
sources, so its contents stay abstract — a fixed mapping from section
name to content.  Field shapes follow how src/search/prompt.py consumes
each key. -/
structure PromptLib where
  role : String
  inputs : String
  reasoning : List String
  output_schema : String
  response_depth : List (String × DepthRow)
  tone : List String
  engagement : List String
  rules : List String
  examples : List ExampleRec
deriving DecidableEq

/-- `"\n".join(xs)`. -/
def nlJoin (xs : List String) : String := String.intercalate "\n" xs

/-- src/search/prompt.py lines 91-95: the reasoning block. -/
def reasoningBlock (reasoning : List String) : String :=
  "## Internal reasoning (do NOT output — perform silently before answering)\n"
    ++ nlJoin reasoning

/-- src/search/prompt.py lines 104-108: the response-depth table header. -/
def depthHeader : String :=
  "## Response-depth guidelines\n\n| Difficulty | Target length | Style |\n|------------|---------------|-------|\n"

def depthRowLine (k : String) (v : DepthRow) : String :=
  "| " ++ k ++ " | " ++ v.target_length ++ " | " ++ v.style ++ " |"

/-- src/search/prompt.py lines 102-117: one row when `difficulty` is
truthy and present in the table, otherwise every row. -/
def renderDepth (depth : List (String × DepthRow)) (difficulty : Option String) : String :=
  let allRows := nlJoin (depth.map fun p => depthRowLine p.1 p.2)
  let rows :=
    match difficulty with
    | some d =>
      if d ≠ "" then
        match depth.lookup d with
        | some v => depthRowLine d v
        | none => allRows
      else allRows
    | none => allRows
  depthHeader ++ rows

/-- src/search/prompt.py lines 120-124. -/
def toneBlock (tone : List String) : String :=
  "## Tone & style (be a coach, not a textbook)\n"
    ++ nlJoin (tone.map fun t => "- " ++ t)

/-- src/search/prompt.py lines 127-133. -/
def engagementBlock (engagement : List String) : String :=
  "## Engagement & curriculum rules (make learning stick)\n"
    ++ nlJoin (engagement.map fun e => "- " ++ e)

/-- `enumerate(rules, 1)`-style numbering. -/
def numberFrom : Nat → List String → List String
  | _, [] => []
  | i, r :: rs => (toString i ++ ". " ++ r) :: numberFrom (i + 1) rs

/-- src/search/prompt.py lines 136-141: base rules, extended by truthy
`extra_rules`, renumbered from 1. -/
def renderRules (base : List String) (extra : Option (List String)) : String :=
  let rules :=
    match extra with
    | some ex => if ex.isEmpty then base else base ++ ex
    | none => base
  "## Rules\n" ++ nlJoin (numberFrom 1 rules)

def lbrace : Char := Char.ofNat 123

def rbrace : Char := Char.ofNat 125

def escapeBracesAux : List Char → List Char
  | [] => []
  | c :: cs =>
    if c = lbrace then lbrace :: lbrace :: escapeBracesAux cs
    else if c = rbrace then rbrace :: rbrace :: escapeBracesAux cs
    else c :: escapeBracesAux cs

/-- src/search/prompt.py line 158: `.replace(...)` doubling each brace so
LangChain does not treat example JSON as template variables. -/
def escapeBraces (s : String) : String := String.mk (escapeBracesAux s.data)

/-- src/search/prompt.py lines 152-158: the lines one example contributes. -/
def renderExample (ex : ExampleRec) : List String :=
  ["\n### Example — " ++ ex.label,
   "TRADE_ANALYSIS: " ++ ex.trade_analysis,
   "QUESTION: " ++ ex.question,
   "CONTEXT:\n" ++ ex.context,
   escapeBraces ex.expected_output_json]

/-- src/search/prompt.py lines 146-159: difficulty-filtered examples;
`none` when the filtered list is empty (the `if examples:` gate). -/
def renderExamples (examples : List ExampleRec) (difficulty : Option String) :
    Option String :=
  let filtered :=
    match difficulty with
    | some d =>
      if d ≠ "" then examples.filter (fun e : ExampleRec => e.difficulty = d)
      else examples
    | none => examples
  if filtered.isEmpty then none
  else some (nlJoin ("## Few-shot examples" :: filtered.flatMap renderExample))

/-- Whether a section name is selected: `sections` unset (include-all
default) or the name explicitly listed. -/
def sectionOn (sections : Option (List String)) (name : String) : Prop :=
  sections = none ∨ name ∈ sections.getD []

instance (sections : Option (List String)) (name : String) :
    Decidable (sectionOn sections name) := by
  unfold sectionOn
  infer_instance

theorem sectionOn_iff (sections : Option (List String)) (name : String) :
    (sections.isNone = true ∨ name ∈ sections.getD []) ↔ sectionOn sections name := by
  rcases sections with _ | l <;> simp [sectionOn]

theorem ite_append_singleton (g : Prop) [Decidable g] (l : List String) (x : String) :
    (if g then l ++ [x] else l) = l ++ (if g then [x] else []) := by
  by_cases h : g <;> simp [h]

/-- src/search/prompt.py `build_system_prompt` (lines 45-165), transcribed
stage by stage: `bspParts1` … `bspParts10` are the states of the Python
`parts` list after each conditional `append`. -/
def bspParts1 (lib : PromptLib) (sections : Option (List String)) : List String :=
  if sections.isNone ∨ "role" ∈ sections.getD [] then ([] : List String) ++ [lib.role]
  else []

/-- prompt.py lines 86-87 (inputs). -/
def bspParts2 (lib : PromptLib) (sections : Option (List String)) : List String :=
  if sections.isNone ∨ "inputs" ∈ sections.getD [] then
    bspParts1 lib sections ++ [lib.inputs]
  else bspParts1 lib sections

/-- prompt.py lines 90-96 (reasoning). -/
def bspParts3 (lib : PromptLib) (sections : Option (List String)) : List String :=
  if sections.isNone ∨ "reasoning" ∈ sections.getD [] then
    bspParts2 lib sections ++ [reasoningBlock lib.reasoning]
  else bspParts2 lib sections

/-- prompt.py lines 98-99 (output schema). -/
def bspParts4 (lib : PromptLib) (sections : Option (List String)) : List String :=
  if sections.isNone ∨ "output_schema" ∈ sections.getD [] then
    bspParts3 lib sections ++ [lib.output_schema]
  else bspParts3 lib sections

/-- prompt.py lines 102-117 (response depth). -/
def bspParts5 (lib : PromptLib) (sections : Option (List String))
    (difficulty : Option String) : List String :=
  if sections.isNone ∨ "response_depth" ∈ sections.getD [] then
    bspParts4 lib sections ++ [renderDepth lib.response_depth difficulty]
  else bspParts4 lib sections

/-- prompt.py lines 120-124 (tone). -/
def bspParts6 (lib : PromptLib) (sections : Option (List String))
    (difficulty : Option String) : List String :=
  if sections.isNone ∨ "tone" ∈ sections.getD [] then
    bspParts5 lib sections difficulty ++ [toneBlock lib.tone]
  else bspParts5 lib sections difficulty

/-- prompt.py lines 127-133 (engagement, only when the library list is
nonempty). -/
def bspParts7 (lib : PromptLib) (sections : Option (List String))
    (difficulty : Option String) : List String :=
  if (sections.isNone ∨ "engagement" ∈ sections.getD []) ∧ ¬ lib.engagement.isEmpty then
    bspParts6 lib sections difficulty ++ [engagementBlock lib.engagement]
  else bspParts6 lib sections difficulty

/-- prompt.py lines 136-141 (rules, extended by `extra_rules`). -/
def bspParts8 (lib : PromptLib) (sections : Option (List String))
    (difficulty : Option String) (extra_rules : Option (List String)) : List String :=
  if sections.isNone ∨ "rules" ∈ sections.getD [] then
    bspParts7 lib sections difficulty ++ [renderRules lib.rules extra_rules]
  else bspParts7 lib sections difficulty

/-- prompt.py lines 146-159 (few-shot examples, gated by
`include_examples`, the `sections` selection, and nonemptiness of the
difficulty-filtered list). -/
def bspParts9 (lib : PromptLib) (sections : Option (List String))
    (difficulty : Option String) (include_examples : Bool)
    (extra_rules : Option (List String)) : List String :=
  match
    (if include_examples ∧ (sections.isNone ∨ "examples" ∈ sections.getD []) then
      renderExamples lib.examples difficulty
    else none) with
  | some exs => bspParts8 lib sections difficulty extra_rules ++ [exs]
  | none => bspParts8 lib sections difficulty extra_rules

/-- prompt.py lines 162-163 (free-form extra instructions, appended
whenever truthy, regardless of `sections`). -/
def bspParts10 (lib : PromptLib) (sections : Option (List String))
    (difficulty : Option String) (include_examples : Bool)
    (extra_rules : Option (List String)) (extra_instructions : Option String) :
    List String :=
  match extra_instructions with
  | some t =>
    if t ≠ "" then
      bspParts9 lib sections difficulty include_examples extra_rules ++ [t]
    else bspParts9 lib sections difficulty include_examples extra_rules
  | none => bspParts9 lib sections difficulty include_examples extra_rules

/-- src/search/prompt.py line 165: `"\n\n".join(parts)`. -/
def build_system_prompt (lib : PromptLib) (sections : Option (List String))
    (difficulty : Option String) (include_examples : Bool)
    (extra_rules : Option (List String)) (extra_instructions : Option String) :
    String :=
  String.intercalate "\n\n"
    (bspParts10 lib sections difficulty include_examples extra_rules extra_instructions)

/-- The assembled parts as one ordered filtered concatenation (the
corrected composition contract): the named library sections are gated by
`sections`; examples additionally require `include_examples` and a
nonempty difficulty-filtered example list; engagement requires a
nonempty engagement list; `extra_instructions` is appended whenever
provided and nonempty, regardless of `sections`. -/
def promptPartsSpec (lib : PromptLib) (sections : Option (List String))
    (difficulty : Option String) (include_examples : Bool)
    (extra_rules : Option (List String)) (extra_instructions : Option String) :
    List String :=
  (if sectionOn sections "role" then [lib.role] else []) ++
  (if sectionOn sections "inputs" then [lib.inputs] else []) ++
  (if sectionOn sections "reasoning" then [reasoningBlock lib.reasoning] else []) ++
  (if sectionOn sections "output_schema" then [lib.output_schema] else []) ++
  (if sectionOn sections "response_depth" then
    [renderDepth lib.response_depth difficulty] else []) ++
  (if sectionOn sections "tone" then [toneBlock lib.tone] else []) ++
  (if sectionOn sections "engagement" ∧ ¬ lib.engagement.isEmpty then
    [engagementBlock lib.engagement] else []) ++
  (if sectionOn sections "rules" then [renderRules lib.rules extra_rules] else []) ++
  (if include_examples ∧ sectionOn sections "examples" then
    (renderExamples lib.examples difficulty).toList else []) ++
  (match extra_instructions with
   | some t => if t ≠ "" then [t] else []
   | none => [])

theorem bspParts1_eq (lib : PromptLib) (sections : Option (List String)) :
    bspParts1 lib sections = (if sectionOn sections "role" then [lib.role] else []) := by
  unfold bspParts1
  simp only [List.nil_append, sectionOn_iff]

theorem bspParts2_eq (lib : PromptLib) (sections : Option (List String)) :
    bspParts2 lib sections =
      bspParts1 lib sections ++ (if sectionOn sections "inputs" then [lib.inputs] else []) := by
  unfold bspParts2
  rw [ite_append_singleton]
  simp only [sectionOn_iff]

theorem bspParts3_eq (lib : PromptLib) (sections : Option (List String)) :
    bspParts3 lib sections =
      bspParts2 lib sections ++
        (if sectionOn sections "reasoning" then [reasoningBlock lib.reasoning] else []) := by
  unfold bspParts3
  rw [ite_append_singleton]
  simp only [sectionOn_iff]

theorem bspParts4_eq (lib : PromptLib) (sections : Option (List String)) :
    bspParts4 lib sections =
      bspParts3 lib sections ++
        (if sectionOn sections "output_schema" then [lib.output_schema] else []) := by
  unfold bspParts4
  rw [ite_append_singleton]
  simp only [sectionOn_iff]

theorem bspParts5_eq (lib : PromptLib) (sections : Option (List String))
    (difficulty : Option String) :
    bspParts5 lib sections difficulty =
      bspParts4 lib sections ++
        (if sectionOn sections "response_depth" then
          [renderDepth lib.response_depth difficulty] else []) := by
  unfold bspParts5
  rw [ite_append_singleton]
  simp only [sectionOn_iff]

theorem bspParts6_eq (lib : PromptLib) (sections : Option (List String))
    (difficulty : Option String) :
    bspParts6 lib sections difficulty =
      bspParts5 lib sections difficulty ++
        (if sectionOn sections "tone" then [toneBlock lib.tone] else []) := by
  unfold bspParts6
  rw [ite_append_singleton]
  simp only [sectionOn_iff]

theorem bspParts7_eq (lib : PromptLib) (sections : Option (List String))
    (difficulty : Option String) :
    bspParts7 lib sections difficulty =
      bspParts6 lib sections difficulty ++
        (if sectionOn sections "engagement" ∧ ¬ lib.engagement.isEmpty then
          [engagementBlock lib.engagement] else []) := by
  unfold bspParts7
  rw [ite_append_singleton]
  by_cases h : (sections.isNone = true ∨ "engagement" ∈ sections.getD []) <;>
    by_cases he : lib.engagement.isEmpty <;>
      simp [h, he, (sectionOn_iff sections "engagement").symm]

theorem bspParts8_eq (lib : PromptLib) (sections : Option (List String))
    (difficulty : Option String) (extra_rules : Option (List String)) :
    bspParts8 lib sections difficulty extra_rules =
      bspParts7 lib sections difficulty ++
        (if sectionOn sections "rules" then [renderRules lib.rules extra_rules] else []) := by
  unfold bspParts8
  rw [ite_append_singleton]
  simp only [sectionOn_iff]

theorem bspParts9_eq (lib : PromptLib) (sections : Option (List String))
    (difficulty : Option String) (include_examples : Bool)
    (extra_rules : Option (List String)) :
    bspParts9 lib sections difficulty include_examples extra_rules =
      bspParts8 lib sections difficulty extra_rules ++
        (if include_examples ∧ sectionOn sections "examples" then
          (renderExamples lib.examples difficulty).toList else []) := by
  unfold bspParts9
  by_cases hc : include_examples = true ∧ (sections.isNone = true ∨ "examples" ∈ sections.getD [])
  · have hc2 : include_examples = true ∧ sectionOn sections "examples" :=
      ⟨hc.1, (sectionOn_iff sections "examples").mp hc.2⟩
    rw [if_pos hc, if_pos hc2]
    cases hre : renderExamples lib.examples difficulty <;> simp
  · have hc2 : ¬ (include_examples = true ∧ sectionOn sections "examples") := by
      intro h
      exact hc ⟨h.1, (sectionOn_iff sections "examples").mpr h.2⟩
    rw [if_neg hc, if_neg hc2]
    simp

theorem bspParts10_eq (lib : PromptLib) (sections : Option (List String))
    (difficulty : Option String) (include_examples : Bool)
    (extra_rules : Option (List String)) (extra_instructions : Option String) :
    bspParts10 lib sections difficulty include_examples extra_rules extra_instructions =
      bspParts9 lib sections difficulty include_examples extra_rules ++
        (match extra_instructions with
         | some t => if t ≠ "" then [t] else []
         | none => []) := by
  rcases extra_instructions with _ | t
  · simp [bspParts10]
  · by_cases ht : t = "" <;> simp [bspParts10, ht]

/-- Claim C7 (corrected): composition is a deterministic concatenation in
the fixed order role, inputs, reasoning, output_schema, response_depth,
tone, engagement, rules, examples, extra_instructions with the gates of
`promptPartsSpec` (sections-selection for the named sections, plus the
`include_examples`, nonempty-examples and nonempty-engagement gates, and
`extra_instructions` whenever provided); in particular
`sections=["role","rules"]` with default remaining knobs yields exactly
the role content followed by the rules block, in that order, and nothing
else. -/
theorem build_system_prompt_spec :
    (∀ (lib : PromptLib) (sections : Option (List String))
       (difficulty : Option String) (include_examples : Bool)
       (extra_rules : Option (List String)) (extra_instructions : Option String),
       build_system_prompt lib sections difficulty include_examples
           extra_rules extra_instructions =
         String.intercalate "\n\n"
           (promptPartsSpec lib sections difficulty include_examples
             extra_rules extra_instructions)) ∧
    (∀ lib : PromptLib,
       build_system_prompt lib (some ["role", "rules"]) none true none none =
         String.intercalate "\n\n" [lib.role, renderRules lib.rules none]) := by
  have hmain : ∀ (lib : PromptLib) (sections : Option (List String))
      (difficulty : Option String) (include_examples : Bool)
      (extra_rules : Option (List String)) (extra_instructions : Option String),
      build_system_prompt lib sections difficulty include_examples
          extra_rules extra_instructions =
        String.intercalate "\n\n"
          (promptPartsSpec lib sections difficulty include_examples
            extra_rules extra_instructions) := by
    intro lib sections difficulty include_examples extra_rules extra_instructions
    unfold build_system_prompt
    refine congrArg (String.intercalate "\n\n") ?_
    rw [bspParts10_eq, bspParts9_eq, bspParts8_eq, bspParts7_eq, bspParts6_eq,
      bspParts5_eq, bspParts4_eq, bspParts3_eq, bspParts2_eq, bspParts1_eq]
    simp only [promptPartsSpec, List.append_assoc]
  refine ⟨hmain, fun lib => ?_⟩
  rw [hmain]
  refine congrArg (String.intercalate "\n\n") ?_
  simp [promptPartsSpec, sectionOn]

/-- A concrete prompt library for the C7 counterexample. -/
def libX : PromptLib :=
  { role := "ROLE", inputs := "INPUTS", reasoning := ["R1"],
    output_schema := "SCHEMA",
    response_depth := [("beginner", { target_length := "short", style := "simple" })],
    tone := ["T1"], engagement := ["E1"], rules := ["RULE1"], examples := [] }

/-- Claim C7 counterexample: with `sections=["role"]` the claimed
iff-gating predicts an output containing only the role content, but
passing `extra_instructions` makes its text appear in the output even
though "extra_instructions" is not listed in `sections` — the code
appends truthy extra instructions unconditionally (prompt.py lines
162-163). -/
theorem prompt_sections_iff_counterexample :
    build_system_prompt libX (some ["role"]) none true none
        (some "EXTRA INSTRUCTIONS TEXT") = "ROLE\n\nEXTRA INSTRUCTIONS TEXT" ∧
    ("ROLE\n\nEXTRA INSTRUCTIONS TEXT" : String) ≠ "ROLE" := by
  exact ⟨by decide, by decide⟩

-- ── Ingestion chunking pipeline (src/search/ingestion/pipeline.py) ───

/-- Text sliced character-by-character by the chunking pipeline (Python
`str` as a list of characters). -/
abbrev Text := List Char

/-- src/search/config.py line 47: `chunk_size: int = 800`. -/
def chunk_size : Nat := 800

/-- src/search/config.py line 48: `chunk_overlap: int = 120`. -/
def chunk_overlap : Nat := 120

/-- src/search/config.py line 49: `top_k: int = 10`. -/
def top_k : Nat := 10

/-- `text.split("\n")`. -/
def splitLines : Text → List Text
  | [] => [[]]
  | c :: rest =>
    if c = '\n' then [] :: splitLines rest
    else
      match splitLines rest with
      | l :: ls => (c :: l) :: ls
      | [] => [[c]]

/-- `"\n".join(lines)`. -/
def joinLines : List Text → Text
  | [] => []
  | [l] => l
  | l :: ls => l ++ '\n' :: joinLines ls

/-- A stage-A segment: its lines and its header-path metadata. -/
structure Segment where
  seglines : List Text
  segmeta : List (String × Text)
deriving DecidableEq

/-- Heading level (1-3) of a markdown line, checking the longest marker
first: `"### "`, then `"## "`, then `"# "`. -/
def lineHeaderLevel (l : Text) : Option Nat :=
  if l.take 4 = "### ".toList then some 3
  else if l.take 3 = "## ".toList then some 2
  else if l.take 2 = "# ".toList then some 1
  else none

/-- Entering a level-`lvl` heading clears deeper or equal levels and
records the new title. -/
def updatePath (hp : List (Nat × Text)) (lvl : Nat) (title : Text) :
    List (Nat × Text) :=
  (hp.filter fun p => p.1 < lvl) ++ [(lvl, title)]

/-- Header path as metadata entries `h1`, `h2`, `h3`. -/
def renderPath (hp : List (Nat × Text)) : List (String × Text) :=
  hp.map fun p => ("h" ++ toString p.1, p.2)

/-- Modelled from the spec: stage A of chunking (spec section 4.2 step 2) —
langchain's `MarkdownHeaderTextSplitter` with `headers_to_split_on`
levels 1-3 and `strip_headers=False` is an external library, so it is
modelled as the spec describes it: "split normalized text at heading
boundaries (levels 1-3), retaining headers in the emitted text, tagging
each resulting segment with the header path that produced it".  `cur` is
the segment being accumulated, `hp` the header path it opened under. -/
def headerSegAux : List Text → List (Nat × Text) → List Text → List Segment
  | cur, hp, [] =>
    if cur.isEmpty then [] else [{ seglines := cur, segmeta := renderPath hp }]
  | cur, hp, line :: rest =>
    match lineHeaderLevel line with
    | some lvl =>
      let hp2 := updatePath hp lvl (line.drop (lvl + 1))
      let tail := headerSegAux [line] hp2 rest
      if cur.isEmpty then tail
      else { seglines := cur, segmeta := renderPath hp } :: tail
    | none => headerSegAux (cur ++ [line]) hp rest

/-- Stage A applied to a document's normalized text. -/
def headerSegments (text : Text) : List Segment :=
  headerSegAux [] [] (splitLines text)

/-- A segment's text: its lines rejoined. -/
def segText (s : Segment) : Text := joinLines s.seglines

/-- Modelled from the spec: stage B of chunking (spec section 4.2 step 3
and the chunk invariant of section 3) — langchain's
`RecursiveCharacterTextSplitter(chunk_size, chunk_overlap)` is an
external library, so it is modelled as the spec describes it: "further
split each stage-A segment so no chunk exceeds the configured maximum
character length, using a fixed target overlap between consecutive
chunks from the same segment".  A segment no longer than `size` is one
chunk; otherwise the first `size` characters are emitted and splitting
continues at stride `size - overlap`.  The degenerate configuration
`size ≤ overlap` (ruled out by the spec's `overlap length < chunk size`
invariant) is guarded to keep the recursion well-founded. -/
def splitByCharsGo (size overlap : Nat) : Nat → Text → List Text
  | 0, s => [s]
  | fuel + 1, s =>
    if s.length ≤ size ∨ size ≤ overlap then [s]
    else s.take size :: splitByCharsGo size overlap fuel (s.drop (size - overlap))

/-- Entry point: the fuel `s.length` always suffices, since every
recursive step strictly shortens the text (this keeps the recursion
structural, hence kernel-computable). -/
def splitByChars (size overlap : Nat) (s : Text) : List Text :=
  splitByCharsGo size overlap s.length s

theorem splitByCharsGo_congr (size overlap : Nat) :
    ∀ (f1 f2 : Nat) (s : Text), s.length ≤ f1 → s.length ≤ f2 →
      splitByCharsGo size overlap f1 s = splitByCharsGo size overlap f2 s := by
  intro f1
  induction f1 with
  | zero =>
    intro f2 s h1 _
    have hs : s.length ≤ size := by omega
    cases f2 with
    | zero => rfl
    | succ f2 => simp [splitByCharsGo, hs]
  | succ f1 ih =>
    intro f2 s h1 h2
    cases f2 with
    | zero =>
      have hs : s.length ≤ size := by omega
      simp [splitByCharsGo, hs]
    | succ f2 =>
      by_cases hc : s.length ≤ size ∨ size ≤ overlap
      · simp [splitByCharsGo, hc]
      · push_neg at hc
        have hd : (s.drop (size - overlap)).length ≤ f1 := by
          rw [List.length_drop]
          omega
        have hd2 : (s.drop (size - overlap)).length ≤ f2 := by
          rw [List.length_drop]
          omega
        have hng : ¬ (s.length ≤ size ∨ size ≤ overlap) := by omega
        simp only [splitByCharsGo, hng, if_false]
        rw [ih f2 (s.drop (size - overlap)) hd hd2]

/-- An ingestion-side langchain `Document`. -/
structure IngestDoc where
  page_content : Text
  metadata : List (String × Text)
deriving DecidableEq

/-- Python dict merge `{**a, **b}`: the keys of `a` in order with values
overridden by `b`, then the keys of `b` absent from `a`, in order. -/
def dictMerge (a b : List (String × Text)) : List (String × Text) :=
  (a.map fun p =>
    match b.lookup p.1 with
    | some v => (p.1, v)
    | none => p) ++
  b.filter fun p => (a.lookup p.1).isNone

/-- src/search/ingestion/pipeline.py `chunk_documents` (lines 114-133):
two-stage split — header-aware, then character-bounded — with segment
metadata merged over document metadata (`{**doc.metadata, **hc.metadata}`)
and propagated to every sub-chunk. -/
def chunk_documents (docs : List IngestDoc) : List IngestDoc :=
  docs.flatMap fun doc =>
    (headerSegments doc.page_content).flatMap fun seg =>
      (splitByChars chunk_size chunk_overlap (segText seg)).map fun t =>
        { page_content := t, metadata := dictMerge doc.metadata seg.segmeta }

theorem splitLines_ne_nil (t : Text) : splitLines t ≠ [] := by
  induction t with
  | nil => simp [splitLines]
  | cons c rest ih =>
    by_cases hc : c = '\n'
    · simp [splitLines, hc]
    · simp only [splitLines, hc, if_false]
      cases hrest : splitLines rest with
      | nil => simp
      | cons l ls => simp

theorem joinLines_splitLines (t : Text) : joinLines (splitLines t) = t := by
  induction t with
  | nil => rfl
  | cons c rest ih =>
    by_cases hc : c = '\n'
    · subst hc
      simp only [splitLines, if_pos rfl]
      cases hrest : splitLines rest with
      | nil => exact absurd hrest (splitLines_ne_nil rest)
      | cons l ls =>
        rw [hrest] at ih
        cases ls with
        | nil => simp [joinLines, ← ih]
        | cons l2 ls2 => simp [joinLines, ← ih]
    · simp only [splitLines, hc, if_false]
      cases hrest : splitLines rest with
      | nil => exact absurd hrest (splitLines_ne_nil rest)
      | cons l ls =>
        rw [hrest] at ih
        cases ls with
        | nil => simpa [joinLines] using congrArg (fun x => c :: x) ih
        | cons l2 ls2 => simpa [joinLines] using congrArg (fun x => c :: x) ih

theorem headerSegAux_partition (lines : List Text) :
    ∀ (cur : List Text) (hp : List (Nat × Text)),
      (headerSegAux cur hp lines).flatMap Segment.seglines = cur ++ lines := by
  induction lines with
  | nil =>
    intro cur hp
    by_cases hc : cur.isEmpty
    · simp [headerSegAux, hc, List.isEmpty_iff.mp hc]
    · simp [headerSegAux, hc]
  | cons line rest ih =>
    intro cur hp
    cases hlvl : lineHeaderLevel line with
    | some lvl =>
      by_cases hc : cur.isEmpty
      · simp [headerSegAux, hlvl, hc, ih, List.isEmpty_iff.mp hc]
      · simp [headerSegAux, hlvl, hc, ih]
    | none =>
      simp [headerSegAux, hlvl, ih]

theorem headerSegments_partition (text : Text) :
    (headerSegments text).flatMap Segment.seglines = splitLines text := by
  unfold headerSegments
  rw [headerSegAux_partition]
  rfl

theorem splitByChars_eq_of_le (size overlap : Nat) (s : Text) (h : s.length ≤ size) :
    splitByChars size overlap s = [s] := by
  unfold splitByChars
  cases hl : s.length with
  | zero => rfl
  | succ m =>
    have hc : s.length ≤ size ∨ size ≤ overlap := Or.inl h
    simp [splitByCharsGo, hc]

theorem splitByChars_eq_of_gt (size overlap : Nat) (s : Text)
    (h1 : size < s.length) (h2 : overlap < size) :
    splitByChars size overlap s =
      s.take size :: splitByChars size overlap (s.drop (size - overlap)) := by
  unfold splitByChars
  obtain ⟨m, hm⟩ : ∃ m, s.length = m + 1 := ⟨s.length - 1, by omega⟩
  have hng : ¬ (s.length ≤ size ∨ size ≤ overlap) := by omega
  have hd : (s.drop (size - overlap)).length ≤ m := by
    rw [List.length_drop]
    omega
  rw [hm]
  simp only [splitByCharsGo, hng, if_false]
  rw [splitByCharsGo_congr size overlap m (s.drop (size - overlap)).length
    (s.drop (size - overlap)) hd le_rfl]

theorem splitByChars_head (size overlap : Nat) (hov : overlap < size) (s : Text) :
    (splitByChars size overlap s)[0]? = some (s.take size) := by
  by_cases hc : s.length ≤ size
  · rw [splitByChars_eq_of_le size overlap s hc]
    simp [List.take_of_length_le hc]
  · push_neg at hc
    rw [splitByChars_eq_of_gt size overlap s hc hov]
    simp

theorem splitByChars_overlap_aux (size overlap : Nat) (hov : overlap < size) :
    ∀ (n : Nat) (s : Text), s.length ≤ n → ∀ (i : Nat) (c1 c2 : Text),
      (splitByChars size overlap s)[i]? = some c1 →
      (splitByChars size overlap s)[i + 1]? = some c2 →
      c1.drop (c1.length - overlap) = c2.take overlap := by
  intro n
  induction n with
  | zero =>
    intro s hs i c1 c2 _ h2
    have hsz : s.length ≤ size := by omega
    rw [splitByChars_eq_of_le size overlap s hsz] at h2
    simp at h2
  | succ n ih =>
    intro s hs i c1 c2 h1 h2
    by_cases hc : s.length ≤ size
    · rw [splitByChars_eq_of_le size overlap s hc] at h2
      simp at h2
    · push_neg at hc
      rw [splitByChars_eq_of_gt size overlap s hc hov] at h1 h2
      cases i with
      | zero =>
        rw [List.getElem?_cons_zero, Option.some.injEq] at h1
        rw [List.getElem?_cons_succ, splitByChars_head size overlap hov,
          Option.some.injEq] at h2
        subst h1
        subst h2
        have hlen : (s.take size).length = size := by
          rw [List.length_take]
          omega
        rw [hlen, List.drop_take, List.take_take]
        have h3 : size - (size - overlap) = overlap := by omega
        have h4 : overlap ⊓ size = overlap := by omega
        rw [h3, h4]
      | succ i0 =>
        rw [List.getElem?_cons_succ] at h1 h2
        have hlen : (s.drop (size - overlap)).length ≤ n := by
          rw [List.length_drop]
          omega
        exact ih (s.drop (size - overlap)) hlen i0 c1 c2 h1 h2

/-- Claim C5 (corrected): a document whose normalized text is no longer
than the chunk size (800) produces exactly one chunk provided the
header-aware stage leaves it in a single segment; a short document with
several level-1-3 headings is split at each heading boundary and yields
several chunks (see the counterexample). -/
theorem chunk_documents_single_segment :
    ∀ (text : Text) (meta : List (String × Text)) (seg : Segment),
      headerSegments text = [seg] → text.length ≤ chunk_size →
      (chunk_documents [{ page_content := text, metadata := meta }]).length = 1 := by
  intro text meta seg hseg hlen
  have hj : (headerSegments text).flatMap Segment.seglines = splitLines text :=
    headerSegments_partition text
  rw [hseg] at hj
  simp only [List.flatMap_cons, List.flatMap_nil, List.append_nil] at hj
  have htext : segText seg = text := by
    rw [segText, hj, joinLines_splitLines]
  have hsplit : splitByChars chunk_size chunk_overlap (segText seg) = [segText seg] := by
    apply splitByChars_eq_of_le
    rw [htext]
    exact hlen
  simp [chunk_documents, hseg, hsplit]

/-- An 11-character document containing two level-1 headings. -/
def docTwoHeads : IngestDoc :=
  { page_content := "# A\nx\n# B\ny".toList, metadata := [] }

set_option maxRecDepth 2500 in
/-- Claim C5 counterexample: a document far below the 800-character chunk
size still yields two chunks, because the header-aware stage splits at
its second heading before the character-bounded stage runs — "exactly
one chunk for any document of length ≤ chunk size" is false. -/
theorem chunk_short_multiheader_counterexample :
    docTwoHeads.page_content.length ≤ chunk_size ∧
    (chunk_documents [docTwoHeads]).length = 2 := by
  exact ⟨by decide, by decide⟩

set_option maxRecDepth 2500 in
theorem chunk_documents_single_segment_witness :
    headerSegments ("hello".toList) =
      [{ seglines := ["hello".toList], segmeta := [] }] ∧
    ("hello".toList).length ≤ chunk_size ∧
    (chunk_documents [{ page_content := "hello".toList, metadata := [] }]).length = 1 :=
  ⟨by decide, by decide,
   chunk_documents_single_segment "hello".toList []
     { seglines := ["hello".toList], segmeta := [] } (by decide) (by decide)⟩

/-- Claim C6 (confirmed for the spec-modelled splitter): for consecutive
chunks produced by the character-bounded splitter from the same
header-aware segment of an ingested document, the trailing 120
characters of the first chunk reappear as the leading 120 characters of
the second. -/
theorem chunk_overlap_roundtrip :
    ∀ (doc : IngestDoc) (seg : Segment), seg ∈ headerSegments doc.page_content →
      ∀ (i : Nat) (c1 c2 : Text),
        (splitByChars chunk_size chunk_overlap (segText seg))[i]? = some c1 →
        (splitByChars chunk_size chunk_overlap (segText seg))[i + 1]? = some c2 →
        c1.drop (c1.length - chunk_overlap) = c2.take chunk_overlap := by
  intro _ seg _ i c1 c2 h1 h2
  exact splitByChars_overlap_aux chunk_size chunk_overlap (by decide)
    (segText seg).length (segText seg) le_rfl i c1 c2 h1 h2

/-- A 900-character single-segment document for the C6 witness. -/
def docLong : IngestDoc := { page_content := List.replicate 900 'a', metadata := [] }

/-- The single segment of `docLong`. -/
def segLong : Segment := { seglines := [List.replicate 900 'a'], segmeta := [] }

theorem splitLines_no_newline : ∀ (t : Text), '\n' ∉ t → splitLines t = [t] := by
  intro t
  induction t with
  | nil => intro _; rfl
  | cons c rest ih =>
    intro h
    have hc : ¬ c = '\n' := fun e => h (by simp [e])
    have hrest : '\n' ∉ rest := fun e => h (List.mem_cons_of_mem c e)
    simp only [splitLines, hc, if_false, ih hrest]

theorem headerSegments_single (t : Text) (hnl : '\n' ∉ t)
    (hlvl : lineHeaderLevel t = none) :
    headerSegments t = [{ seglines := [t], segmeta := [] }] := by
  unfold headerSegments
  rw [splitLines_no_newline t hnl]
  simp [headerSegAux, hlvl, renderPath]

theorem chunk_overlap_roundtrip_witness :
    segLong ∈ headerSegments docLong.page_content ∧
    (splitByChars chunk_size chunk_overlap (segText segLong))[0]? =
      some (List.replicate 800 'a') ∧
    (splitByChars chunk_size chunk_overlap (segText segLong))[1]? =
      some (List.replicate 220 'a') ∧
    (List.replicate 800 'a').drop ((List.replicate 800 'a').length - chunk_overlap) =
      (List.replicate 220 'a').take chunk_overlap := by
  have hnonl : '\n' ∉ List.replicate 900 'a' := by
    intro h
    rw [List.mem_replicate] at h
    exact absurd h.2 (by decide)
  have hmem : segLong ∈ headerSegments docLong.page_content := by
    show segLong ∈ headerSegments (List.replicate 900 'a')
    rw [headerSegments_single (List.replicate 900 'a') hnonl (by decide)]
    exact List.mem_singleton.mpr rfl
  have hseg : segText segLong = List.replicate 900 'a' := rfl
  have hlen900 : (List.replicate 900 'a').length = 900 := List.length_replicate 900 'a'
  have hlen220 : (List.replicate 220 'a').length = 220 := List.length_replicate 220 'a'
  have hsplit : splitByChars chunk_size chunk_overlap (segText segLong) =
      [List.replicate 800 'a', List.replicate 220 'a'] := by
    rw [hseg]
    rw [splitByChars_eq_of_gt chunk_size chunk_overlap (List.replicate 900 'a')
      (by rw [hlen900]; decide) (by decide)]
    rw [List.take_replicate, List.drop_replicate]
    have h1 : chunk_size ⊓ 900 = 800 := by decide
    have h2 : 900 - (chunk_size - chunk_overlap) = 220 := by decide
    rw [h1, h2]
    rw [splitByChars_eq_of_le chunk_size chunk_overlap (List.replicate 220 'a')
      (by rw [hlen220]; decide)]
  refine ⟨hmem, ?_, ?_, ?_⟩
  · rw [hsplit]
    rfl
  · rw [hsplit]
    rfl
  · exact chunk_overlap_roundtrip docLong segLong hmem 0
      (List.replicate 800 'a') (List.replicate 220 'a')
      (by rw [hsplit]; rfl) (by rw [hsplit]; rfl)
